import Mathlib

/-!
# Sentinel DDoS — verification of the request-admission pipeline

Shallow embedding of the core of the `sentinel-ddos` reverse proxy
(`src/mitigation/rate_limiter.py`, `src/mitigation/blocker.py`,
`src/mitigation/challenge.py`, `src/proxy/fingerprint.py`,
`src/detection/classifier.py`, `src/detection/behavior.py`,
`src/detection/scorer.py`, `src/rules/engine.py`, `src/proxy/handler.py`),
together with proofs of the specification's claims about it.

Modelling conventions:
* Python floats are modelled as `ℚ` (`math.sqrt`, whose result is not
  rational, is passed in as an abstract function, as are the SHA-256 / HMAC
  primitives — the code only ever treats their outputs as opaque strings).
* Python strings are Lean `String`s, except where the code splits on a
  separator character, where `List Char` (the `data` of a `String`) is used.
* Redis sorted sets are lists of member scores; `zadd` appends (the code
  makes every member unique on purpose), `zremrangebyscore -inf w` drops
  scores `≤ w`, `zcard` is the length.  An unreachable Redis client is the
  `none` case of an `Option`-typed key-value state.
* Python `dict`s (insertion-ordered) are association lists.
-/

/-! ## Python primitives -/

/-- `str.upper` on one character (ASCII, which is all the code feeds it). -/
def pyUpperChar (c : Char) : Char :=
  if 'a' ≤ c ∧ c ≤ 'z' then Char.ofNat (c.toNat - 32) else c

/-- `str.lower` on one character (ASCII, which is all the code feeds it). -/
def pyLowerChar (c : Char) : Char :=
  if 'A' ≤ c ∧ c ≤ 'Z' then Char.ofNat (c.toNat + 32) else c

/-- Python `str.upper()`. -/
def pyUpper (s : String) : String := ⟨s.data.map pyUpperChar⟩

/-- Python `str.lower()`. -/
def pyLower (s : String) : String := ⟨s.data.map pyLowerChar⟩

/-- Python `str.split(sep)` for a one-character separator, over `List Char`.
`pySplit sep [] = [[]]`, matching `"".split(sep) == [""]`. -/
def pySplit (sep : Char) : List Char → List (List Char)
  | [] => [[]]
  | c :: cs =>
    match pySplit sep cs with
    | [] => [[]]
    | p :: ps => if c = sep then [] :: p :: ps else (c :: p) :: ps

/-- `sep.join(parts)`: inverse of `pySplit`. -/
def pyJoin (sep : Char) : List (List Char) → List Char
  | [] => []
  | [p] => p
  | p :: ps => p ++ sep :: pyJoin sep ps

/-- Python `str.strip()` (whitespace at both ends). -/
def pyStrip (l : List Char) : List Char :=
  ((l.dropWhile Char.isWhitespace).reverse.dropWhile Char.isWhitespace).reverse

/-- Truthiness of an optional string (`if s:` for `s : str | None`):
true exactly for a present, non-empty string. -/
def pyTruthy : Option String → Bool
  | some s => s ≠ ""
  | none => false

/-- Decimal digits to a natural number. -/
def digitsToNat (ds : List Char) : ℕ :=
  ds.foldl (fun n c => n * 10 + (c.toNat - '0'.toNat)) 0

/-- Python `int(s)`: an optional sign followed by at least one decimal digit;
anything else raises `ValueError`, modelled as `none`.  (CPython additionally
strips surrounding whitespace and allows `_` between digits; no claim in this
development depends on such inputs.) -/
def pyInt : List Char → Option ℤ
  | [] => none
  | c :: ds =>
    if c = '-' then
      if ds ≠ [] ∧ ds.all Char.isDigit then some (-(digitsToNat ds : ℤ)) else none
    else if c = '+' then
      if ds ≠ [] ∧ ds.all Char.isDigit then some (digitsToNat ds) else none
    else if (c :: ds).all Char.isDigit then some (digitsToNat (c :: ds))
    else none

/-- `collections.deque(maxlen = m).append x`: drop from the left when full. -/
def dequeAppend (maxlen : ℕ) (xs : List α) (x : α) : List α :=
  if maxlen < xs.length + 1 then (xs ++ [x]).drop (xs.length + 1 - maxlen)
  else xs ++ [x]

/-- Python `set.add`, with the set kept as a duplicate-free list (so the
list's length is the set's cardinality). -/
def setInsert [DecidableEq α] (xs : List α) (x : α) : List α :=
  if x ∈ xs then xs else xs ++ [x]

/-- Python `dict.get(k)` on an insertion-ordered association list. -/
def dictGet? [DecidableEq κ] : List (κ × α) → κ → Option α
  | [], _ => none
  | p :: ps, k => if p.1 = k then some p.2 else dictGet? ps k

/-- Python `d[k] = v`: replace in place if the key exists, else append. -/
def dictSet [DecidableEq κ] : List (κ × α) → κ → α → List (κ × α)
  | [], k, v => [(k, v)]
  | p :: ps, k, v => if p.1 = k then (k, v) :: ps else p :: dictSet ps k v

/-! ## RateLimiter (`src/mitigation/rate_limiter.py`)

One Redis sorted-set key is the list of its member scores (timestamps, here
`ℤ`); members are unique per request (`"<now>:<uuid4-hex8>"`), so `zadd`
never coalesces and is an append. -/

/-- A Redis sorted-set key: the scores of its members. -/
abbrev ZSet := List ℤ

/-- The three per-IP / per-subnet / global limits
(`settings.rate_limit_per_ip` / `_per_subnet` / `_global`). -/
structure RLConfig where
  ratePerIp : ℕ
  ratePerSubnet : ℕ
  rateGlobal : ℕ

/-- State of the three window keys `rl:ip:<ip>`, `rl:sub:<subnet>`,
`rl:global` touched by `RateLimiter.allow` for one fixed client IP. -/
structure RLState where
  ipKey : ZSet
  subKey : ZSet
  globalKey : ZSet

namespace RateLimiter

/-- `WINDOW_SEC = 60`. -/
def WINDOW_SEC : ℤ := 60

/-- `RateLimiter._check_key`: pipelined
`zremrangebyscore key -inf window_start` (drops scores `≤ window_start`),
`zadd key {member: now}`, `zcard key`, `expire key (window+10)` (the TTL does
not affect window membership and is not modelled); returns
`count ≤ limit` together with the updated key. -/
def checkKey (entries : ZSet) (now windowStart : ℤ) (limit : ℕ) :
    Bool × ZSet :=
  let kept := entries.filter (fun s => windowStart < s)
  let added := kept ++ [now]
  (added.length ≤ limit, added)

/-- `RateLimiter._get_count`: `zcount key window_start +inf`
(scores `≥ window_start`). -/
def getCount (entries : ZSet) (windowStart : ℤ) : ℕ :=
  (entries.filter (fun s => windowStart ≤ s)).length

/-- `RateLimiter.allow`: per-IP, then per-subnet, then global check, short
circuiting on the first rejection; `none` for the KV state means the Redis
client is unavailable (`redis is None` → fail-open `True`). -/
def allow (cfg : RLConfig) (kv : Option RLState) (now : ℤ) :
    Bool × Option RLState :=
  match kv with
  | none => (true, none)
  | some st =>
    let ws := now - WINDOW_SEC
    let r1 := checkKey st.ipKey now ws cfg.ratePerIp
    if ¬ r1.1 then (false, some { st with ipKey := r1.2 })
    else
      let r2 := checkKey st.subKey now ws cfg.ratePerSubnet
      if ¬ r2.1 then (false, some { st with ipKey := r1.2, subKey := r2.2 })
      else
        let r3 := checkKey st.globalKey now ws cfg.rateGlobal
        (r3.1, some ⟨r1.2, r2.2, r3.2⟩)

/-- `RateLimiter.allow_with_count`: like `allow`, but additionally returns
the current per-IP count (`_get_count` on `rl:ip:<ip>`). -/
def allowWithCount (cfg : RLConfig) (kv : Option RLState) (now : ℤ) :
    (Bool × ℕ) × Option RLState :=
  match kv with
  | none => ((true, 0), none)
  | some st =>
    let ws := now - WINDOW_SEC
    let r1 := checkKey st.ipKey now ws cfg.ratePerIp
    if ¬ r1.1 then ((false, getCount r1.2 ws), some { st with ipKey := r1.2 })
    else
      let r2 := checkKey st.subKey now ws cfg.ratePerSubnet
      if ¬ r2.1 then
        ((false, getCount r1.2 ws), some { st with ipKey := r1.2, subKey := r2.2 })
      else
        let r3 := checkKey st.globalKey now ws cfg.rateGlobal
        ((r3.1, getCount r1.2 ws), some ⟨r1.2, r2.2, r3.2⟩)

/-- `RateLimiter.check_rule_limit` on the key `rl:rule:<rule>:<ip>`:
independent window of `window_sec` seconds; same trim/add/card pipeline;
returns `(count ≤ limit, count)`. -/
def checkRuleLimit (kv : Option ZSet) (now windowSec : ℤ) (limit : ℕ) :
    (Bool × ℕ) × Option ZSet :=
  match kv with
  | none => ((true, 0), none)
  | some entries =>
    let ws := now - windowSec
    let key := entries.filter (fun s => ws < s) ++ [now]
    ((key.length ≤ limit, key.length), some key)

/-- `RateLimiter.get_ip_count`. -/
def getIpCount (kv : Option ZSet) (now : ℤ) : ℕ :=
  match kv with
  | none => 0
  | some entries => getCount entries (now - WINDOW_SEC)

/-- Iterate `allow` over a list of request timestamps, collecting the
per-call decisions and the final KV state. -/
def allowRun (cfg : RLConfig) (kv : Option RLState) :
    List ℤ → List Bool × Option RLState
  | [] => ([], kv)
  | t :: ts =>
    let r := allow cfg kv t
    let rest := allowRun cfg r.2 ts
    (r.1 :: rest.1, rest.2)

end RateLimiter

/-! ## IPBlocker (`src/mitigation/blocker.py`) -/

/-- Blocker state: the `sentinel:allowlist` set, the permanent
`sentinel:blocklist` set, and the TTL keys `block:<ip>` with their TTL in
seconds. -/
structure BlockerState where
  allowlist : List String
  blocklist : List String
  ttlBlocks : List (String × ℤ)

namespace IPBlocker

/-- `IPBlocker.is_blocked`: allowlist first, then the TTL key, then the
permanent set; `none` (Redis down) → `False`. -/
def isBlocked (kv : Option BlockerState) (ip : String) : Bool :=
  match kv with
  | none => false
  | some st =>
    if st.allowlist.contains ip then false
    else if (st.ttlBlocks.map Prod.fst).contains ip then true
    else st.blocklist.contains ip

/-- `redis.set key v ex=d`: overwrite the TTL key. -/
def setTtlKey (l : List (String × ℤ)) (k : String) (v : ℤ) :
    List (String × ℤ) :=
  l.filter (fun p => p.1 ≠ k) ++ [(k, v)]

/-- `IPBlocker.block`: with a (Python-truthy, i.e. nonzero) duration, set the
TTL key `block:<ip>`; otherwise add to the permanent set.  `none` → no-op. -/
def block (kv : Option BlockerState) (ip : String) (durationSec : Option ℤ) :
    Option BlockerState :=
  match kv with
  | none => none
  | some st =>
    match durationSec with
    | some d =>
      if d ≠ 0 then some { st with ttlBlocks := setTtlKey st.ttlBlocks ip d }
      else some { st with blocklist := st.blocklist ++ [ip] }
    | none => some { st with blocklist := st.blocklist ++ [ip] }

end IPBlocker

/-! ## ChallengeManager (`src/mitigation/challenge.py`)

The cryptographic primitives are abstract deterministic functions: the code
only compares their hex-string outputs, never inspects them. -/

/-- `hmacSha256Hex d` models
`hmac.new(secret, d, hashlib.sha256).hexdigest()` for the manager's fixed
secret; `sha256Hex d` models `hashlib.sha256(d).hexdigest()`. -/
structure CryptoModel where
  hmacSha256Hex : List Char → List Char
  sha256Hex : List Char → List Char

/-- `CHALLENGE_TTL = 3600`. -/
def CHALLENGE_TTL : ℤ := 3600

namespace ChallengeManager

/-- `ChallengeManager._verify_token`: split the cookie on `:` into exactly
five parts `ip:nonce:ts:sig:pow_nonce`; require `ip` to equal the current
client IP, `now - int(ts) ≤ 3600`, the HMAC over `ip:nonce:ts` to equal
`sig`, and the SHA-256 hex of `ip:nonce:ts:sig:pow_nonce` to start with
`"00"`.  Any exception (`int(ts)` failing) is caught and yields `False`. -/
def verifyToken (crypto : CryptoModel) (now : ℤ)
    (token clientIp : List Char) : Bool :=
  match pySplit ':' token with
  | [ip, nonce, ts, sig, powNonce] =>
    if ip ≠ clientIp then false
    else
      match pyInt ts with
      | none => false
      | some tsv =>
        if CHALLENGE_TTL < now - tsv then false
        else
          let original := ip ++ ':' :: nonce ++ ':' :: ts
          let expected := crypto.hmacSha256Hex original
          if sig ≠ expected then false
          else
            let fullToken := original ++ ':' :: sig
            let powInput := fullToken ++ ':' :: powNonce
            ['0', '0'].isPrefixOf (crypto.sha256Hex powInput)
  | _ => false

end ChallengeManager

/-! ## RequestFingerprint (`src/proxy/fingerprint.py`) -/

/-- The dataclass `RequestFingerprint` (the `raw_headers` dict carries no
information used by `composite_id` and is omitted). -/
structure RequestFingerprint where
  clientIp : String
  ja3Hash : Option String := none
  headerOrderHash : Option String := none
  userAgent : Option String := none
  acceptLanguage : Option String := none
  acceptEncoding : Option String := none
  connectionType : Option String := none

namespace RequestFingerprint

/-- The `parts` list hashed by `composite_id` (`x or ""` turns both `None`
and `""` into `""`, i.e. `Option.getD ""`). -/
def compositeParts (fp : RequestFingerprint) : List String :=
  [fp.ja3Hash.getD "", fp.headerOrderHash.getD "",
   fp.userAgent.getD "", fp.acceptLanguage.getD ""]

/-- `"|".join(parts)`. -/
def joinBar : List String → String
  | [] => ""
  | [p] => p
  | p :: ps => p ++ "|" ++ joinBar ps

/-- `RequestFingerprint.composite_id`:
`f"{client_ip}:{sha256('|'.join(parts)).hexdigest()[:16]}"`, with the
SHA-256 hex digest abstract. -/
def compositeId (sha256Hex : String → String) (fp : RequestFingerprint) :
    String :=
  fp.clientIp ++ ":" ++ ⟨(sha256Hex (joinBar (compositeParts fp))).data.take 16⟩

end RequestFingerprint

/-! ## AttackClassifier (`src/detection/classifier.py`) -/

/-- The `AttackType` enum. -/
inductive AttackType where
  | HTTP_FLOOD
  | SLOWLORIS
  | API_ABUSE
  | CREDENTIAL_STUFFING
  | SCRAPING
  | UNKNOWN
deriving DecidableEq, Repr

/-- The feature-dict fields `classify` reads, with the dict's `.get`
defaults. -/
structure RequestFeatures where
  method : String := "GET"
  path : String := "/"
  userAgent : String := ""
  contentLength : ℤ := 0

/-- Python `needle in hay` on strings. -/
def strIn (needle hay : String) : Bool := go needle.data hay.data where
  go (n : List Char) : List Char → Bool
    | [] => n.isPrefixOf []
    | c :: cs => n.isPrefixOf (c :: cs) || go n cs

/-- `login_paths` in `AttackClassifier.classify`. -/
def loginPaths : List String :=
  ["/login", "/auth", "/api/login", "/api/auth", "/signin", "/api/signin"]

namespace AttackClassifier

/-- `rate_ratio = rate_count / rate_limit if rate_limit > 0 else 0.0` in
`AttackClassifier.classify`. -/
def rateRatio (rateCount rateLimit : ℤ) : ℚ :=
  if 0 < rateLimit then (rateCount : ℚ) / (rateLimit : ℚ) else 0

/-- `AttackClassifier.classify`: first matching heuristic wins, `none` means
benign; `not ua` is the empty string. -/
def classify (features : RequestFeatures) (rateCount rateLimit : ℤ)
    (behaviorScore : ℚ) : Option AttackType :=
  let rateRatio : ℚ := rateRatio rateCount rateLimit
  if 0.6 < rateRatio ∧ (features.userAgent = "" ∨ 0.5 < behaviorScore) then
    some .HTTP_FLOOD
  else if 0.85 < rateRatio then
    some .HTTP_FLOOD
  else if features.contentLength = 0 ∧ features.method = "POST" ∧
      0.3 < behaviorScore then
    some .SLOWLORIS
  else if pyLower features.path ∈ loginPaths ∧ features.method = "POST" ∧
      0.3 < rateRatio then
    some .CREDENTIAL_STUFFING
  else if strIn "/api/" features.path = true ∧
      (features.method = "POST" ∨ features.method = "PUT" ∨
        features.method = "DELETE") ∧
      (0.5 < rateRatio ∨ 0.6 < behaviorScore) then
    some .API_ABUSE
  else if features.method = "GET" ∧ 0.6 < behaviorScore ∧ 0.4 < rateRatio then
    some .SCRAPING
  else
    none

end AttackClassifier

/-! ## BehaviorAnalyzer (`src/detection/behavior.py`)

Timestamps and scores are `ℚ`; `math.sqrt` is passed in as an abstract
function `sqrtQ` (the code only compares its output against constants). -/

/-- The `IPSession` dataclass, with its field defaults.  The Python sets are
kept as duplicate-free lists so `len` is the list length. -/
structure IPSession where
  firstSeen : ℚ := 0
  lastSeen : ℚ := 0
  requestCount : ℕ := 0
  interArrivalTimes : List ℚ := []
  pathsVisited : List String := []
  methodsUsed : List String := []
  hasReferer : Bool := false
  hasCookies : Bool := false
  userAgents : List String := []
  acceptLanguages : List String := []
  headerOrderHashes : List String := []

/-- `IPSession.record`. -/
def IPSession.record (s : IPSession) (now : ℚ)
    (path method userAgent acceptLanguage : String)
    (referer cookie : Option String) (headerOrderHash : String) : IPSession :=
  { firstSeen := if s.firstSeen = 0 then now else s.firstSeen
    lastSeen := now
    requestCount := s.requestCount + 1
    interArrivalTimes :=
      if 0 < s.lastSeen then
        dequeAppend 200 s.interArrivalTimes (now - s.lastSeen)
      else s.interArrivalTimes
    pathsVisited := dequeAppend 100 s.pathsVisited path
    methodsUsed := setInsert s.methodsUsed method
    hasReferer := s.hasReferer || pyTruthy referer
    hasCookies := s.hasCookies || pyTruthy cookie
    userAgents :=
      if userAgent ≠ "" then setInsert s.userAgents userAgent else s.userAgents
    acceptLanguages :=
      if acceptLanguage ≠ "" then setInsert s.acceptLanguages acceptLanguage
      else s.acceptLanguages
    headerOrderHashes := setInsert s.headerOrderHashes headerOrderHash }

namespace BehaviorAnalyzer

/-- `BehaviorAnalyzer._timing_regularity`: coefficient of variation of the
inter-arrival times; `sqrtQ` stands for `math.sqrt`. -/
def timingRegularity (sqrtQ : ℚ → ℚ) (s : IPSession) : ℚ :=
  let intervals := s.interArrivalTimes
  if intervals.length < 5 then 0
  else
    let meanIat := intervals.sum / (intervals.length : ℚ)
    if meanIat = 0 then 1
    else
      let variance :=
        (intervals.map (fun x => (x - meanIat) ^ 2)).sum / (intervals.length : ℚ)
      let stdIat := sqrtQ variance
      let cv := stdIat / meanIat
      if cv < 0.05 then 1
      else if cv < 0.15 then 0.7
      else if cv < 0.3 then 0.3
      else 0

/-- `BehaviorAnalyzer._path_diversity`: fraction of distinct paths. -/
def pathDiversity (s : IPSession) : ℚ :=
  if s.pathsVisited = [] then 0
  else (s.pathsVisited.dedup.length : ℚ) / (s.pathsVisited.length : ℚ)

/-- `BehaviorAnalyzer._header_consistency`. -/
def headerConsistency (s : IPSession) : ℚ :=
  let score : ℚ :=
    (if 1 < s.userAgents.length then 0.5 else 0) +
    (if 2 < s.acceptLanguages.length then 0.3 else 0) +
    (if 2 < s.headerOrderHashes.length then 0.2 else 0)
  min 1 score

/-- `BehaviorAnalyzer._rate_score`. -/
def rateScore (s : IPSession) : ℚ :=
  let duration := s.lastSeen - s.firstSeen
  if duration < 1 then 0
  else
    let rps := (s.requestCount : ℚ) / duration
    if 20 < rps then 1
    else if 10 < rps then 0.7
    else if 5 < rps then 0.3
    else 0

/-- `BehaviorAnalyzer._browser_indicators`. -/
def browserIndicators (s : IPSession) : ℚ :=
  let score : ℚ :=
    (if ¬ s.hasReferer ∧ 5 < s.requestCount then 0.4 else 0) +
    (if ¬ s.hasCookies ∧ 3 < s.requestCount then 0.3 else 0) +
    (if s.acceptLanguages = [] then 0.3 else 0)
  min 1 score

/-- `BehaviorAnalyzer._compute_score`: `0.0` below 3 requests, otherwise the
weighted sum of the five signals clamped to `[0, 1]`. -/
def computeScore (sqrtQ : ℚ → ℚ) (s : IPSession) : ℚ :=
  if s.requestCount < 3 then 0
  else
    let composite :=
      timingRegularity sqrtQ s * 0.30 +
      (1 - pathDiversity s) * 0.15 +
      headerConsistency s * 0.15 +
      rateScore s * 0.20 +
      browserIndicators s * 0.20
    min 1 (max 0 composite)

/-- `SESSION_TTL = 600`, `MAX_TRACKED = 50_000`. -/
def SESSION_TTL : ℚ := 600

def MAX_TRACKED : ℕ := 50000

/-- The analyzer's mutable state: the insertion-ordered `_sessions` dict and
`_last_cleanup`. -/
structure AnalyzerState where
  sessions : List (String × IPSession) := []
  lastCleanup : ℚ := 0

/-- `BehaviorAnalyzer._maybe_cleanup`: at most every 60 s, drop sessions with
`last_seen < now - SESSION_TTL`. -/
def maybeCleanup (now : ℚ) (st : AnalyzerState) : AnalyzerState :=
  if now - st.lastCleanup < 60 then st
  else
    { sessions := st.sessions.filter (fun p => ¬ p.2.lastSeen < now - SESSION_TTL)
      lastCleanup := now }

/-- `min(self._sessions, key=last_seen)` followed by `del`: remove the first
entry in iteration order whose `last_seen` is minimal. -/
def evictOldest (l : List (String × IPSession)) : List (String × IPSession) :=
  match (l.map (fun p => p.2.lastSeen)).min? with
  | none => l
  | some m => l.eraseP (fun p => p.2.lastSeen = m)

/-- `BehaviorAnalyzer.record_and_score`: cleanup, look up or create (with
eviction at capacity) the IP's session, record the request into it, store it
back, and return `_compute_score` of the just-recorded session. -/
def recordAndScore (sqrtQ : ℚ → ℚ) (st : AnalyzerState) (now : ℚ)
    (clientIp path method userAgent acceptLanguage : String)
    (referer cookie : Option String) (headerOrderHash : String) :
    ℚ × AnalyzerState :=
  let st1 := maybeCleanup now st
  let sessions1 :=
    match dictGet? st1.sessions clientIp with
    | some _ => st1.sessions
    | none =>
      if MAX_TRACKED ≤ st1.sessions.length then evictOldest st1.sessions
      else st1.sessions
  let s0 := (dictGet? st1.sessions clientIp).getD {}
  let s1 := s0.record now path method userAgent acceptLanguage referer cookie
    headerOrderHash
  (computeScore sqrtQ s1,
   { sessions := dictSet sessions1 clientIp s1, lastCleanup := st1.lastCleanup })

/-- `BehaviorAnalyzer.get_session`. -/
def getSession (st : AnalyzerState) (clientIp : String) : Option IPSession :=
  dictGet? st.sessions clientIp

end BehaviorAnalyzer

/-! ## AnomalyScorer (`src/detection/scorer.py`) -/

namespace AnomalyScorer

/-- `AnomalyScorer._z_to_score`: `z = |value - mean| / std` (0 when `std` is
falsy, i.e. zero), then a piecewise ramp 0 → 1 between z = 1.5 and z = 3. -/
def zToScore (value mean std : ℚ) : ℚ :=
  let z := if std ≠ 0 then |value - mean| / std else 0
  if z < 1.5 then 0
  else if z < 3 then (z - 1.5) / 1.5
  else 1

end AnomalyScorer

/-! ## RulesEngine (`src/rules/engine.py`) -/

/-- The `EscalationStep` dataclass. -/
structure EscalationStep where
  threshold : ℚ := 0
  action : String := "monitor"
  duration : Option String := none
deriving DecidableEq

/-- The `RateLimit` dataclass. -/
structure RateLimit where
  perIp : Option String := none
  perSubnet : Option String := none
deriving DecidableEq

/-- The `Rule` dataclass. -/
structure Rule where
  name : String
  matchPath : Option String := none
  matchMethod : Option String := none
  limits : Option RateLimit := none
  escalation : List EscalationStep := []
  enabled : Bool := true
deriving DecidableEq

namespace RulesEngine

/-- `RulesEngine._path_matches`: prefix match when the rule path ends in
`*`, exact equality otherwise. -/
def pathMatches (requestPath rulePath : String) : Bool :=
  if rulePath.data.getLast? = some '*' then
    rulePath.data.dropLast.isPrefixOf requestPath.data
  else requestPath = rulePath

/-- `RulesEngine.match_request`: enabled rules whose (Python-truthy, i.e.
non-empty) path and method matchers accept the request; the method is
compared case-insensitively. -/
def matchRequest (rules : List Rule) (path method : String) : List Rule :=
  rules.filter (fun r =>
    r.enabled &&
    (match r.matchPath with
     | some rp => if rp = "" then true else pathMatches path rp
     | none => true) &&
    (match r.matchMethod with
     | some m => if m = "" then true else pyUpper m = pyUpper method
     | none => true))

/-- `unit_map.get(unit, 60)` in `parse_rate_string`. -/
def unitWindow (unit : List Char) : ℕ :=
  if unit = "second".data then 1
  else if unit = "minute".data then 60
  else if unit = "hour".data then 3600
  else if unit = "day".data then 86400
  else 60

/-- `RulesEngine.parse_rate_string`: split on `/`; `int(parts[0])` (a
`ValueError` propagates, modelled as `none`); the unit defaults to
`"minute"` when there is no slash and to a 60-second window when unknown. -/
def parseRateString (s : List Char) : Option (ℤ × ℕ) :=
  let parts := pySplit '/' s
  match pyInt (parts.headD []) with
  | none => none
  | some count =>
    let unit :=
      if 1 < parts.length then (parts.getD 1 []).map pyLowerChar
      else "minute".data
    some (count, unitWindow unit)

end RulesEngine

/-- Modelled from the spec: the rate-string grammar
`(\d+)/(second|minute|hour|day)` anchored at both ends (one slash, a
non-empty all-digit count, one of the four unit words), for comparison with
`RulesEngine.parse_rate_string`. -/
def matchesRateGrammar (s : List Char) : Bool :=
  match pySplit '/' s with
  | [d, u] =>
    d ≠ [] && d.all Char.isDigit &&
      (u = "second".data || u = "minute".data || u = "hour".data ||
        u = "day".data)
  | _ => false

/-! ## Escalation helpers and the per-rule branch of `reverse_proxy`
(`src/proxy/handler.py`) -/

/-- Stable insertion into a threshold-ascending list (the element goes after
every element with a `≤` threshold), used to model Python's stable
`sorted(steps, key=lambda s: s.threshold)`. -/
def insertByThreshold (x : EscalationStep) :
    List EscalationStep → List EscalationStep
  | [] => [x]
  | y :: ys =>
    if y.threshold < x.threshold then y :: insertByThreshold x ys
    else x :: y :: ys

/-- `sorted(steps, key=lambda s: s.threshold)` (stable, ascending). -/
def sortByThreshold : List EscalationStep → List EscalationStep
  | [] => []
  | x :: xs => insertByThreshold x (sortByThreshold xs)

/-- `_resolve_escalation`: walk the threshold-ascending steps and keep the
action of the last step whose threshold the usage percentage reaches;
default `"rate_limit"`. -/
def resolveEscalation (steps : List EscalationStep) (usagePct : ℚ) : String :=
  (sortByThreshold steps).foldl
    (fun action step => if step.threshold ≤ usagePct then step.action else action)
    "rate_limit"

/-- `_duration_to_seconds`: `"Nm" / "Nh" / "Nd" / "Ns"` or a bare integer,
after `strip().lower()`; an `int` failure raises, modelled as `none`. -/
def durationToSeconds (dur : List Char) : Option ℤ :=
  let d := (pyStrip dur).map pyLowerChar
  match d.getLast? with
  | some 'm' => (pyInt d.dropLast).map (· * 60)
  | some 'h' => (pyInt d.dropLast).map (· * 3600)
  | some 'd' => (pyInt d.dropLast).map (· * 86400)
  | some 's' => pyInt d.dropLast
  | _ => pyInt d

/-- `_parse_duration`: the highest-threshold step with a (Python-truthy)
duration, parsed; `none` when no step has one.  (A parse failure raises in
the source; here it makes the search continue, which no verified claim
depends on.) -/
def parseDuration (steps : List EscalationStep) : Option ℤ :=
  (sortByThreshold steps).reverse.findSome? (fun step =>
    match step.duration with
    | some d => if d ≠ "" then durationToSeconds d.data else none
    | none => none)

/-- The branch of `reverse_proxy` handling a per-rule rate-limit rejection
(handler.py 216–255): compute `usage_pct` (with the truthiness guard on the
limit), resolve the escalation, and answer 403 after a block (returning also
the TTL block write `some (duration)`), 503 for a served challenge page
(`validCookie` abstracts `maybe_challenge` returning `None` for a client
with a valid challenge cookie, in which case the branch falls through to
429), or 429.  This branch runs only for requests that survived the
management-path skip at the top of `reverse_proxy` (`reverseProxySkips`,
wired in `proxyEntry` below): every `/api/*` path is answered 404 before
the rules engine is ever consulted. -/
def ruleRejectionResponse (rule : Rule) (count limitCount : ℕ)
    (validCookie : Bool) : ℕ × Option (Option ℤ) :=
  let usagePct : ℚ :=
    if limitCount ≠ 0 then (count : ℚ) / (limitCount : ℚ) * 100 else 0
  let action := resolveEscalation rule.escalation usagePct
  if action = "block" then (403, some (parseDuration rule.escalation))
  else if action = "js_challenge" then
    if validCookie then (429, none) else (503, none)
  else (429, none)

/-- The recomputation of the behaviour score in `reverse_proxy` before
classification (handler.py 286–290): read the IP's stored session and apply
`BehaviorAnalyzer._compute_score` to it when it has at least 3 requests,
keeping `0.0` otherwise. -/
def handlerBehaviorScore (sqrtQ : ℚ → ℚ) (st : BehaviorAnalyzer.AnalyzerState)
    (clientIp : String) : ℚ :=
  match BehaviorAnalyzer.getSession st clientIp with
  | none => 0
  | some s =>
    if 3 ≤ s.requestCount then BehaviorAnalyzer.computeScore sqrtQ s else 0

/-- The "Login Protection" rule of the specification's scenario E4 and of
`tests/test_rules.py`: POST `/api/login`, per-IP `5/minute`, escalation
`[{80, js_challenge}, {95, block, "1h"}]`. -/
def loginProtectionRule : Rule :=
  { name := "Login Protection"
    matchPath := some "/api/login"
    matchMethod := some "POST"
    limits := some { perIp := some "5/minute", perSubnet := some "50/minute" }
    escalation :=
      [{ threshold := 80, action := "js_challenge" },
       { threshold := 95, action := "block", duration := some "1h" }] }

/-- The very first step of `reverse_proxy` (handler.py 186–189):
`request.url.path.startswith(("/api/", "/ws/", "/openapi.json"))` — such
requests are answered 404 at once and reach neither the blocklist nor the
rules engine nor detection. -/
def reverseProxySkips (requestPath : String) : Bool :=
  "/api/".data.isPrefixOf requestPath.data ||
  "/ws/".data.isPrefixOf requestPath.data ||
  "/openapi.json".data.isPrefixOf requestPath.data

/-- The opening of `reverse_proxy` up to the rules stage (handler.py
186–208): the management-path skip answers 404 immediately; only when it
does not fire does `rules_engine.match_request` run (on `url_path`, which
equals the request path for the catch-all route).  `Sum.inl` is the
immediate 404 response, `Sum.inr` the matched rules handed to the per-rule
limit loop. -/
def proxyEntry (rules : List Rule) (requestPath method : String) :
    Sum ℕ (List Rule) :=
  if reverseProxySkips requestPath then Sum.inl 404
  else Sum.inr (RulesEngine.matchRequest rules requestPath method)

/-- The login rule re-pointed at a path that is *not* under the proxy's
management-path skip (`/login`, also one of the classifier's login paths):
same name, method, limits and escalation ladder as `loginProtectionRule`.
Used to state what the per-rule escalation does for requests that actually
reach it. -/
def loginPathRule : Rule :=
  { loginProtectionRule with matchPath := some "/login" }

/-! ## Helper lemmas about the Python primitives -/

theorem pySplit_ne_nil (sep : Char) (l : List Char) : pySplit sep l ≠ [] := by
  induction l with
  | nil => simp [pySplit]
  | cons c cs ih =>
    rw [pySplit]
    rcases h : pySplit sep cs with _ | ⟨p, ps⟩
    · exact absurd h ih
    · by_cases hc : c = sep <;> simp [hc]

theorem pyJoin_cons_cons (sep : Char) (c : Char) (p : List Char)
    (ps : List (List Char)) :
    pyJoin sep ((c :: p) :: ps) = c :: pyJoin sep (p :: ps) := by
  cases ps <;> simp [pyJoin]

theorem pyJoin_pySplit (sep : Char) (l : List Char) :
    pyJoin sep (pySplit sep l) = l := by
  induction l with
  | nil => simp [pySplit, pyJoin]
  | cons c cs ih =>
    rw [pySplit]
    rcases h : pySplit sep cs with _ | ⟨p, ps⟩
    · exact absurd h (pySplit_ne_nil sep cs)
    · rw [h] at ih
      by_cases hc : c = sep
      · simp only [hc, if_pos rfl]
        cases ps <;> simpa [pyJoin] using ih
      · simp only [if_neg hc, pyJoin_cons_cons, ih]

theorem notMem_of_mem_pySplit (sep : Char) (l : List Char) :
    ∀ p ∈ pySplit sep l, sep ∉ p := by
  induction l with
  | nil =>
    intro p hp
    simp [pySplit] at hp
    simp [hp]
  | cons c cs ih =>
    intro p hp
    rw [pySplit] at hp
    rcases h : pySplit sep cs with _ | ⟨q, qs⟩
    · exact absurd h (pySplit_ne_nil sep cs)
    · rw [h] at hp ih
      dsimp only at hp
      by_cases hc : c = sep
      · rw [if_pos hc] at hp
        rcases List.mem_cons.mp hp with h1 | h1
        · subst h1; simp
        · exact ih p h1
      · rw [if_neg hc] at hp
        rcases List.mem_cons.mp hp with h1 | h1
        · subst h1
          intro hmem
          rcases List.mem_cons.mp hmem with h2 | h2
          · exact hc h2.symm
          · exact ih q (List.mem_cons_self q qs) h2
        · exact ih p (List.mem_cons.mpr (Or.inr h1))

theorem pySplit_of_notMem (sep : Char) (a : List Char) (ha : sep ∉ a) :
    pySplit sep a = [a] := by
  induction a with
  | nil => simp [pySplit]
  | cons c cs ih =>
    rw [pySplit, ih (fun h => ha (List.mem_cons.mpr (Or.inr h)))]
    have hc : ¬ c = sep := fun h => ha (List.mem_cons.mpr (Or.inl h.symm))
    simp [hc]

theorem pySplit_append (sep : Char) (a b : List Char) (ha : sep ∉ a) :
    pySplit sep (a ++ sep :: b) = a :: pySplit sep b := by
  induction a with
  | nil =>
    rw [List.nil_append, pySplit]
    rcases h : pySplit sep b with _ | ⟨p, ps⟩
    · exact absurd h (pySplit_ne_nil sep b)
    · simp
  | cons c cs ih =>
    have hc : ¬ c = sep := fun h => ha (List.mem_cons.mpr (Or.inl h.symm))
    rw [List.cons_append, pySplit,
      ih (fun h => ha (List.mem_cons.mpr (Or.inr h)))]
    simp [hc]

theorem dictGet?_dictSet [DecidableEq κ] (l : List (κ × α)) (k : κ) (v : α) :
    dictGet? (dictSet l k v) k = some v := by
  induction l with
  | nil => simp [dictSet, dictGet?]
  | cons p ps ih =>
    rw [dictSet]
    by_cases hp : p.1 = k
    · simp [hp, dictGet?]
    · simp [hp, dictGet?, ih]

/-! ## C8 — fail-open when the KV store is unavailable -/

/-- C8: when the Redis client is `None`, `RateLimiter.allow` returns `True`,
`allow_with_count` returns `(True, 0)`, `check_rule_limit` returns
`(True, 0)`, `get_ip_count` returns `0`, and `IPBlocker.is_blocked` returns
`False` — no request is denied because the store is down. -/
theorem failOpen_when_kv_unavailable (cfg : RLConfig) (now windowSec : ℤ)
    (limit : ℕ) (ip : String) :
    RateLimiter.allow cfg none now = (true, none) ∧
    RateLimiter.allowWithCount cfg none now = ((true, 0), none) ∧
    RateLimiter.checkRuleLimit none now windowSec limit = ((true, 0), none) ∧
    RateLimiter.getIpCount none now = 0 ∧
    IPBlocker.isBlocked none ip = false :=
  ⟨rfl, rfl, rfl, rfl, rfl⟩

/-! ## C4 — the composite fingerprint id -/

/-- C4 (counterexample): two fingerprints that differ only in
`accept_encoding` produce the *same* hash input and the same composite id —
`composite_id` does not include `accept_encoding` among the hashed parts. -/
theorem compositeId_acceptEncoding_counterexample :
    ({ clientIp := "192.0.2.7", userAgent := some "UA",
       acceptEncoding := some "gzip" } : RequestFingerprint).acceptEncoding ≠
      ({ clientIp := "192.0.2.7", userAgent := some "UA",
         acceptEncoding := some "br" } : RequestFingerprint).acceptEncoding ∧
    ({ clientIp := "192.0.2.7", userAgent := some "UA",
       acceptEncoding := some "gzip" } : RequestFingerprint).compositeParts =
      ({ clientIp := "192.0.2.7", userAgent := some "UA",
         acceptEncoding := some "br" } : RequestFingerprint).compositeParts ∧
    ({ clientIp := "192.0.2.7", userAgent := some "UA",
       acceptEncoding := some "gzip" } : RequestFingerprint).compositeId
        (fun s => s) =
      ({ clientIp := "192.0.2.7", userAgent := some "UA",
         acceptEncoding := some "br" } : RequestFingerprint).compositeId
        (fun s => s) := by
  refine ⟨by decide, rfl, rfl⟩

/-- C4 (amended): the composite id is the client IP, a `":"` separator, and
the first 16 hex characters of the SHA-256 digest of the `"|"`-joined fields
TLS (JA3) hash, header-order hash, User-Agent and accept-language —
`accept_encoding` is not hashed, so fingerprints agreeing on those four
fields and the IP share one composite id whatever their accept-encoding. -/
theorem compositeId_eq_of_hashed_fields_eq (sha256Hex : String → String)
    (fp₁ fp₂ : RequestFingerprint)
    (hip : fp₁.clientIp = fp₂.clientIp)
    (hja3 : fp₁.ja3Hash = fp₂.ja3Hash)
    (hhoh : fp₁.headerOrderHash = fp₂.headerOrderHash)
    (hua : fp₁.userAgent = fp₂.userAgent)
    (hal : fp₁.acceptLanguage = fp₂.acceptLanguage) :
    fp₁.compositeId sha256Hex = fp₂.compositeId sha256Hex ∧
    fp₁.compositeId sha256Hex = fp₁.clientIp ++ ":" ++
      ⟨(sha256Hex (RequestFingerprint.joinBar
          [fp₁.ja3Hash.getD "", fp₁.headerOrderHash.getD "",
           fp₁.userAgent.getD "", fp₁.acceptLanguage.getD ""])).data.take 16⟩ :=
  ⟨by simp [RequestFingerprint.compositeId, RequestFingerprint.compositeParts,
      hip, hja3, hhoh, hua, hal], rfl⟩

/-- Witness for the C4 theorem at concrete fingerprints. -/
theorem compositeId_eq_of_hashed_fields_eq_witness :
    ({ clientIp := "10.0.0.1", acceptEncoding := some "gzip" } :
        RequestFingerprint).compositeId (fun s => s) =
      ({ clientIp := "10.0.0.1", acceptEncoding := none } :
        RequestFingerprint).compositeId (fun s => s) :=
  (compositeId_eq_of_hashed_fields_eq (fun s => s) _ _ rfl rfl rfl rfl rfl).1

/-! ## C7 — the z-score ramp -/

theorem zToScore_eq_clamp (value mean std : ℚ) (hstd : 0 < std) :
    AnomalyScorer.zToScore value mean std =
      min 1 (max 0 ((|value - mean| / std - 1.5) / 1.5)) := by
  rw [AnomalyScorer.zToScore]
  simp only [if_pos (ne_of_gt hstd)]
  set z : ℚ := |value - mean| / std with hz
  rcases lt_or_le z 1.5 with h1 | h1
  · rw [if_pos h1,
      max_eq_left (div_nonpos_of_nonpos_of_nonneg
        (by linarith : z - 1.5 ≤ 0) (by norm_num : (0:ℚ) ≤ 1.5))]
    norm_num
  · rw [if_neg (not_lt.mpr h1)]
    have hnn : 0 ≤ (z - 1.5) / 1.5 :=
      div_nonneg (by linarith) (by norm_num)
    rcases lt_or_le z 3 with h2 | h2
    · rw [if_pos h2, max_eq_right hnn, min_eq_right]
      rw [div_le_one (by norm_num : (0:ℚ) < 1.5)]
      linarith
    · rw [if_neg (not_lt.mpr h2), max_eq_right hnn, min_eq_left]
      rw [le_div_iff (by norm_num : (0:ℚ) < 1.5)]
      linarith

/-- C7: for a positive standard deviation, `_z_to_score` is continuous in
the value, monotone non-decreasing in `|x − μ|`, and piecewise equals 0 for
`z ≤ 1.5`, `(z − 1.5)/1.5` for `1.5 ≤ z ≤ 3`, and 1 for `z ≥ 3` (so the
pieces agree at both joints). -/
theorem zToScore_continuous_monotone_piecewise (mean std : ℚ)
    (hstd : 0 < std) :
    Continuous (fun value : ℚ => AnomalyScorer.zToScore value mean std) ∧
    (∀ x₁ x₂ : ℚ, |x₁ - mean| ≤ |x₂ - mean| →
      AnomalyScorer.zToScore x₁ mean std ≤ AnomalyScorer.zToScore x₂ mean std) ∧
    (∀ x : ℚ, |x - mean| / std ≤ 1.5 →
      AnomalyScorer.zToScore x mean std = 0) ∧
    (∀ x : ℚ, 1.5 ≤ |x - mean| / std → |x - mean| / std ≤ 3 →
      AnomalyScorer.zToScore x mean std = (|x - mean| / std - 1.5) / 1.5) ∧
    (∀ x : ℚ, 3 ≤ |x - mean| / std → AnomalyScorer.zToScore x mean std = 1) := by
  refine ⟨?_, ?_, ?_, ?_, ?_⟩
  · have : (fun value : ℚ => AnomalyScorer.zToScore value mean std) =
        fun value : ℚ => min 1 (max 0 ((|value - mean| / std - 1.5) / 1.5)) :=
      funext fun value => zToScore_eq_clamp value mean std hstd
    rw [this]
    exact continuous_const.min (continuous_const.max
      ((((continuous_id.sub continuous_const).abs.div_const std).sub
        continuous_const).div_const 1.5))
  · intro x₁ x₂ h
    rw [zToScore_eq_clamp x₁ mean std hstd, zToScore_eq_clamp x₂ mean std hstd]
    have hd : |x₁ - mean| / std ≤ |x₂ - mean| / std :=
      div_le_div_of_nonneg_right h hstd.le
    exact min_le_min le_rfl (max_le_max le_rfl
      (div_le_div_of_nonneg_right (by linarith) (by norm_num)))
  · intro x hx
    rw [zToScore_eq_clamp x mean std hstd,
      max_eq_left (div_nonpos_of_nonpos_of_nonneg
        (by linarith : |x - mean| / std - 1.5 ≤ 0) (by norm_num : (0:ℚ) ≤ 1.5))]
    norm_num
  · intro x hx1 hx3
    rw [zToScore_eq_clamp x mean std hstd]
    rw [max_eq_right (div_nonneg (by linarith) (by norm_num)), min_eq_right]
    rw [div_le_one (by norm_num : (0:ℚ) < 1.5)]
    linarith
  · intro x hx
    rw [zToScore_eq_clamp x mean std hstd]
    rw [max_eq_right (div_nonneg (by linarith) (by norm_num)), min_eq_left]
    rw [le_div_iff (by norm_num : (0:ℚ) < 1.5)]
    linarith

/-! ## C1 — the per-IP sliding window counts every call -/

theorem checkKey_fresh (entries : ZSet) (now ws : ℤ) (limit : ℕ)
    (h : ∀ s ∈ entries, ws < s) :
    RateLimiter.checkKey entries now ws limit =
      (decide (entries.length + 1 ≤ limit), entries ++ [now]) := by
  have hf : entries.filter (fun s => ws < s) = entries :=
    List.filter_eq_self.mpr (fun a ha => decide_eq_true (h a ha))
  simp [RateLimiter.checkKey, hf]

theorem allowRun_spec (cfg : RLConfig) :
    ∀ (ts : List ℤ) (st : RLState),
    (∀ s ∈ st.ipKey, ∀ t ∈ ts, t - 60 < s) →
    (∀ s ∈ st.subKey, ∀ t ∈ ts, t - 60 < s) →
    (∀ s ∈ st.globalKey, ∀ t ∈ ts, t - 60 < s) →
    (∀ t ∈ ts, ∀ t2 ∈ ts, t - 60 < t2) →
    st.subKey.length + ts.length ≤ cfg.ratePerSubnet →
    st.globalKey.length + ts.length ≤ cfg.rateGlobal →
    (RateLimiter.allowRun cfg (some st) ts).1 =
      (List.range ts.length).map
        (fun i => decide (st.ipKey.length + i + 1 ≤ cfg.ratePerIp)) ∧
    ∃ st2 : RLState, (RateLimiter.allowRun cfg (some st) ts).2 = some st2 ∧
      st2.ipKey.length = st.ipKey.length + ts.length := by
  intro ts
  induction ts with
  | nil =>
    intro st _ _ _ _ _ _
    exact ⟨rfl, st, rfl, by simp⟩
  | cons t rest ih =>
    intro st hip hsub hglob hspan hsubcap hglobcap
    have htt : ∀ t2 ∈ rest, t2 - 60 < t := fun t2 h2 =>
      hspan t2 (List.mem_cons.mpr (Or.inr h2)) t (List.mem_cons_self t rest)
    have hws_ip : ∀ s ∈ st.ipKey, t - 60 < s := fun s hs =>
      hip s hs t (List.mem_cons_self t rest)
    have hws_sub : ∀ s ∈ st.subKey, t - 60 < s := fun s hs =>
      hsub s hs t (List.mem_cons_self t rest)
    have hws_glob : ∀ s ∈ st.globalKey, t - 60 < s := fun s hs =>
      hglob s hs t (List.mem_cons_self t rest)
    have hfresh_ip : ∀ s ∈ st.ipKey ++ [t], ∀ t2 ∈ rest, t2 - 60 < s := by
      intro s hs t2 h2
      rcases List.mem_append.mp hs with hs | hs
      · exact hip s hs t2 (List.mem_cons.mpr (Or.inr h2))
      · rw [List.mem_singleton.mp hs]; exact htt t2 h2
    have hfresh_sub : ∀ s ∈ st.subKey ++ [t], ∀ t2 ∈ rest, t2 - 60 < s := by
      intro s hs t2 h2
      rcases List.mem_append.mp hs with hs | hs
      · exact hsub s hs t2 (List.mem_cons.mpr (Or.inr h2))
      · rw [List.mem_singleton.mp hs]; exact htt t2 h2
    have hfresh_glob : ∀ s ∈ st.globalKey ++ [t], ∀ t2 ∈ rest, t2 - 60 < s := by
      intro s hs t2 h2
      rcases List.mem_append.mp hs with hs | hs
      · exact hglob s hs t2 (List.mem_cons.mpr (Or.inr h2))
      · rw [List.mem_singleton.mp hs]; exact htt t2 h2
    have hsub_rest : ∀ s ∈ st.subKey, ∀ t2 ∈ rest, t2 - 60 < s := fun s hs t2 h2 =>
      hsub s hs t2 (List.mem_cons.mpr (Or.inr h2))
    have hglob_rest : ∀ s ∈ st.globalKey, ∀ t2 ∈ rest, t2 - 60 < s := fun s hs t2 h2 =>
      hglob s hs t2 (List.mem_cons.mpr (Or.inr h2))
    have hspan_rest : ∀ t1 ∈ rest, ∀ t2 ∈ rest, t1 - 60 < t2 := fun t1 h1 t2 h2 =>
      hspan t1 (List.mem_cons.mpr (Or.inr h1)) t2 (List.mem_cons.mpr (Or.inr h2))
    simp only [List.length_cons] at hsubcap hglobcap
    by_cases hacc : st.ipKey.length + 1 ≤ cfg.ratePerIp
    · -- accepted by the per-IP check; subnet and global also pass
      have hsubok : st.subKey.length + 1 ≤ cfg.ratePerSubnet := by omega
      have hglobok : st.globalKey.length + 1 ≤ cfg.rateGlobal := by omega
      have hkip := checkKey_fresh st.ipKey t (t - RateLimiter.WINDOW_SEC) cfg.ratePerIp
        (by intro s hs; have := hws_ip s hs; simp only [RateLimiter.WINDOW_SEC]; omega)
      have hksub := checkKey_fresh st.subKey t (t - RateLimiter.WINDOW_SEC) cfg.ratePerSubnet
        (by intro s hs; have := hws_sub s hs; simp only [RateLimiter.WINDOW_SEC]; omega)
      have hkglob := checkKey_fresh st.globalKey t (t - RateLimiter.WINDOW_SEC) cfg.rateGlobal
        (by intro s hs; have := hws_glob s hs; simp only [RateLimiter.WINDOW_SEC]; omega)
      have hstep : RateLimiter.allow cfg (some st) t =
          (true, some ⟨st.ipKey ++ [t], st.subKey ++ [t], st.globalKey ++ [t]⟩) := by
        simp only [RateLimiter.allow, hkip, hksub, hkglob]
        simp [hacc, hsubok, hglobok]
      obtain ⟨ih1, st2, ih2, ih3⟩ :=
        ih ⟨st.ipKey ++ [t], st.subKey ++ [t], st.globalKey ++ [t]⟩
          hfresh_ip hfresh_sub hfresh_glob hspan_rest
          (by simp; omega) (by simp; omega)
      rw [RateLimiter.allowRun]
      refine ⟨?_, st2, ?_, ?_⟩
      · simp only [hstep, ih1, List.length_cons]
        rw [List.range_succ_eq_map, List.map_cons, List.map_map]
        congr 1
        · simp [decide_eq_true hacc]
        · apply List.map_congr_left
          intro i _
          simp only [Function.comp_apply, List.length_append, List.length_singleton]
          rw [decide_eq_decide]
          omega
      · simp only [hstep, ih2]
      · rw [ih3]
        simp
        omega
    · -- rejected: the member is still inserted into the ip key
      have hkip := checkKey_fresh st.ipKey t (t - RateLimiter.WINDOW_SEC) cfg.ratePerIp
        (by intro s hs; have := hws_ip s hs; simp only [RateLimiter.WINDOW_SEC]; omega)
      have hstep : RateLimiter.allow cfg (some st) t =
          (false, some { st with ipKey := st.ipKey ++ [t] }) := by
        simp only [RateLimiter.allow, hkip]
        simp [hacc]
      obtain ⟨ih1, st2, ih2, ih3⟩ :=
        ih { st with ipKey := st.ipKey ++ [t] }
          hfresh_ip hsub_rest hglob_rest hspan_rest
          (by simp; omega) (by simp; omega)
      rw [RateLimiter.allowRun]
      refine ⟨?_, st2, ?_, ?_⟩
      · simp only [hstep, ih1, List.length_cons]
        rw [List.range_succ_eq_map, List.map_cons, List.map_map]
        congr 1
        · simp [hacc]
        · apply List.map_congr_left
          intro i _
          simp only [Function.comp_apply, List.length_append, List.length_singleton]
          rw [decide_eq_decide]
          omega
      · simp only [hstep, ih2]
      · rw [ih3]
        simp
        omega


theorem count_true_range (N L : ℕ) :
    (((List.range N).map (fun i => decide (i + 1 ≤ L))).count true) = min N L := by
  induction N with
  | zero => simp
  | succ n ihn =>
    rw [List.range_succ, List.map_append, List.count_append]
    by_cases h : n + 1 ≤ L
    · simp [List.count_cons, decide_eq_true h, ihn]
      omega
    · simp [List.count_cons, h, ihn]
      omega

/-- C1: starting from empty windows, when `allow(ip)` is called once per
timestamp of `ts`, all within one 60-second sliding window (every pair of
timestamps is less than 60 apart), and the per-subnet and global limits do
not bind (both at least `ts.length`), then the `i`-th call (0-based) sees
the per-IP cardinality `i + 1` — counting its just-added member — and is
allowed exactly when `i + 1 ≤ L`; hence exactly `min (ts.length) L` of the
calls return `True`, and every call, allowed or rejected, leaves its member
in the per-IP window (final cardinality `ts.length`). -/
theorem rateLimiter_allow_window (cfg : RLConfig) (ts : List ℤ)
    (hspan : ∀ t ∈ ts, ∀ t2 ∈ ts, t - 60 < t2)
    (hsub : ts.length ≤ cfg.ratePerSubnet)
    (hglob : ts.length ≤ cfg.rateGlobal) :
    (RateLimiter.allowRun cfg (some ⟨[], [], []⟩) ts).1 =
      (List.range ts.length).map (fun i => decide (i + 1 ≤ cfg.ratePerIp)) ∧
    ((RateLimiter.allowRun cfg (some ⟨[], [], []⟩) ts).1.count true) =
      min ts.length cfg.ratePerIp ∧
    ∃ st2 : RLState,
      (RateLimiter.allowRun cfg (some ⟨[], [], []⟩) ts).2 = some st2 ∧
      st2.ipKey.length = ts.length := by
  obtain ⟨h1, st2, h2, h3⟩ := allowRun_spec cfg ts ⟨[], [], []⟩
    (by simp) (by simp) (by simp) hspan (by simpa using hsub)
    (by simpa using hglob)
  have h1x : (RateLimiter.allowRun cfg (some ⟨[], [], []⟩) ts).1 =
      (List.range ts.length).map (fun i => decide (i + 1 ≤ cfg.ratePerIp)) := by
    simpa using h1
  exact ⟨h1x, by rw [h1x, count_true_range], st2, h2, by simpa using h3⟩

/-- Witness for the C1 theorem: limits (2, 10, 10), four calls inside one
window: allowed, allowed, rejected, rejected. -/
theorem rateLimiter_allow_window_witness :
    (RateLimiter.allowRun ⟨2, 10, 10⟩ (some ⟨[], [], []⟩) [0, 10, 20, 30]).1 =
      [true, true, false, false] ∧
    (RateLimiter.allowRun ⟨2, 10, 10⟩
      (some ⟨[], [], []⟩) [0, 10, 20, 30]).1.count true = 2 := by
  have h := rateLimiter_allow_window ⟨2, 10, 10⟩ [0, 10, 20, 30]
    (by decide) (by decide) (by decide)
  refine ⟨by rw [h.1]; decide, by rw [h.2.1]; decide⟩

/-! ## C6 and C10 — the behaviour score -/

namespace BehaviorAnalyzer

theorem computeScore_nonneg (sqrtQ : ℚ → ℚ) (s : IPSession) :
    0 ≤ computeScore sqrtQ s := by
  rw [computeScore]
  split_ifs with h
  · exact le_refl 0
  · exact le_min (by norm_num) (le_max_left 0 _)

theorem computeScore_le_one (sqrtQ : ℚ → ℚ) (s : IPSession) :
    computeScore sqrtQ s ≤ 1 := by
  rw [computeScore]
  split_ifs with h
  · norm_num
  · exact min_le_left 1 _

end BehaviorAnalyzer

/-- C6: for every analyzer state and every input, the score returned by
`record_and_score` lies in [0, 1]; it is exactly 0 whenever the recorded
session's `request_count` (which includes the current request) is below 3,
and for `request_count ≥ 3` it is the clamped weighted sum of the five
signals with weights 0.30, 0.15, 0.15, 0.20, 0.20. -/
theorem behavior_score_range_and_threshold (sqrtQ : ℚ → ℚ)
    (st : BehaviorAnalyzer.AnalyzerState) (now : ℚ)
    (clientIp path method userAgent acceptLanguage : String)
    (referer cookie : Option String) (headerOrderHash : String)
    (score : ℚ) (st2 : BehaviorAnalyzer.AnalyzerState)
    (h : BehaviorAnalyzer.recordAndScore sqrtQ st now clientIp path method
      userAgent acceptLanguage referer cookie headerOrderHash = (score, st2)) :
    0 ≤ score ∧ score ≤ 1 ∧
    ∀ s, BehaviorAnalyzer.getSession st2 clientIp = some s →
      (s.requestCount < 3 → score = 0) ∧
      (3 ≤ s.requestCount → score =
        min 1 (max 0 (BehaviorAnalyzer.timingRegularity sqrtQ s * 0.30 +
          (1 - BehaviorAnalyzer.pathDiversity s) * 0.15 +
          BehaviorAnalyzer.headerConsistency s * 0.15 +
          BehaviorAnalyzer.rateScore s * 0.20 +
          BehaviorAnalyzer.browserIndicators s * 0.20))) := by
  have hsc : score = (BehaviorAnalyzer.recordAndScore sqrtQ st now clientIp
      path method userAgent acceptLanguage referer cookie headerOrderHash).1 := by
    rw [h]
  have hst : st2 = (BehaviorAnalyzer.recordAndScore sqrtQ st now clientIp
      path method userAgent acceptLanguage referer cookie headerOrderHash).2 := by
    rw [h]
  subst hsc
  subst hst
  refine ⟨BehaviorAnalyzer.computeScore_nonneg _ _,
    BehaviorAnalyzer.computeScore_le_one _ _, ?_⟩
  intro s hs
  simp only [BehaviorAnalyzer.recordAndScore, BehaviorAnalyzer.getSession] at hs ⊢
  rw [dictGet?_dictSet] at hs
  have hs1 := (Option.some.injEq _ _).mp hs
  subst hs1
  constructor
  · intro hlt
    rw [BehaviorAnalyzer.computeScore, if_pos hlt]
  · intro hge
    rw [BehaviorAnalyzer.computeScore, if_neg (by omega)]

/-- C10: the behaviour score `reverse_proxy` recomputes before
classification — `_compute_score` applied to the IP's stored session, with
the 0.0 guard for sessions below 3 requests — equals the score
`record_and_score` returned for that same request during detection scoring:
`_compute_score` is pure and the session is unchanged in between; in
particular both are 0.0 when the session's `request_count` is below 3. -/
theorem handler_recompute_behavior_score (sqrtQ : ℚ → ℚ)
    (st : BehaviorAnalyzer.AnalyzerState) (now : ℚ)
    (clientIp path method userAgent acceptLanguage : String)
    (referer cookie : Option String) (headerOrderHash : String)
    (score : ℚ) (st2 : BehaviorAnalyzer.AnalyzerState)
    (h : BehaviorAnalyzer.recordAndScore sqrtQ st now clientIp path method
      userAgent acceptLanguage referer cookie headerOrderHash = (score, st2)) :
    handlerBehaviorScore sqrtQ st2 clientIp = score ∧
    ∀ s, BehaviorAnalyzer.getSession st2 clientIp = some s →
      s.requestCount < 3 →
      score = 0 ∧ handlerBehaviorScore sqrtQ st2 clientIp = 0 := by
  have hsc : score = (BehaviorAnalyzer.recordAndScore sqrtQ st now clientIp
      path method userAgent acceptLanguage referer cookie headerOrderHash).1 := by
    rw [h]
  have hst : st2 = (BehaviorAnalyzer.recordAndScore sqrtQ st now clientIp
      path method userAgent acceptLanguage referer cookie headerOrderHash).2 := by
    rw [h]
  subst hsc
  subst hst
  constructor
  · rw [handlerBehaviorScore]
    simp only [BehaviorAnalyzer.recordAndScore, BehaviorAnalyzer.getSession]
    rw [dictGet?_dictSet]
    dsimp only
    by_cases hge : 3 ≤ (IPSession.record
        ((dictGet? (BehaviorAnalyzer.maybeCleanup now st).sessions clientIp).getD {})
        now path method userAgent acceptLanguage referer cookie
        headerOrderHash).requestCount
    · rw [if_pos hge]
    · rw [if_neg hge, BehaviorAnalyzer.computeScore, if_pos (by omega)]
  · intro s hs hlt
    simp only [BehaviorAnalyzer.recordAndScore, BehaviorAnalyzer.getSession] at hs ⊢
    rw [dictGet?_dictSet] at hs
    have hs1 := (Option.some.injEq _ _).mp hs
    subst hs1
    constructor
    · rw [BehaviorAnalyzer.computeScore, if_pos hlt]
    · rw [handlerBehaviorScore]
      simp only [BehaviorAnalyzer.recordAndScore, BehaviorAnalyzer.getSession]
      rw [dictGet?_dictSet]
      dsimp only
      rw [if_neg (by omega)]

/-- Witness for the C6 theorem: a first request scores within [0, 1]. -/
theorem behavior_score_range_witness :
    0 ≤ (BehaviorAnalyzer.recordAndScore (fun q => q) ⟨[], 0⟩ 100 "1.2.3.4"
      "/" "GET" "ua" "en" none none "h").1 ∧
    (BehaviorAnalyzer.recordAndScore (fun q => q) ⟨[], 0⟩ 100 "1.2.3.4"
      "/" "GET" "ua" "en" none none "h").1 ≤ 1 := by
  have h := behavior_score_range_and_threshold (fun q => q) ⟨[], 0⟩ 100
    "1.2.3.4" "/" "GET" "ua" "en" none none "h" _ _ rfl
  exact ⟨h.1, h.2.1⟩

/-- Witness for the C10 theorem at a concrete first request. -/
theorem handler_recompute_behavior_score_witness :
    handlerBehaviorScore (fun q => q)
      (BehaviorAnalyzer.recordAndScore (fun q => q) ⟨[], 0⟩ 50 "10.0.0.9"
        "/x" "GET" "ua" "en" none none "hh").2 "10.0.0.9" =
    (BehaviorAnalyzer.recordAndScore (fun q => q) ⟨[], 0⟩ 50 "10.0.0.9"
      "/x" "GET" "ua" "en" none none "hh").1 :=
  (handler_recompute_behavior_score (fun q => q) ⟨[], 0⟩ 50 "10.0.0.9" "/x"
    "GET" "ua" "en" none none "hh" _ _ rfl).1

/-! ## C5 — the attack classifier -/

/-- C5: the classifier is a pure function of
`(features, rate_count, rate_limit, behavior_score)` — determinism is
inherent in the embedding — and with `r = rateRatio rate_count rate_limit`
(`rate_count/rate_limit`, or 0 for a non-positive limit) it returns each
label exactly when its rule is the first to match, in the fixed order
HTTP_FLOOD (two rules), SLOWLORIS, CREDENTIAL_STUFFING, API_ABUSE,
SCRAPING, and `none` when no rule matches. -/
theorem classify_first_match_cases (f : RequestFeatures) (rc rl : ℤ)
    (b : ℚ) :
    (AttackClassifier.classify f rc rl b = some .HTTP_FLOOD ↔
      (0.6 < AttackClassifier.rateRatio rc rl ∧
        (f.userAgent = "" ∨ 0.5 < b)) ∨
        0.85 < AttackClassifier.rateRatio rc rl) ∧
    (AttackClassifier.classify f rc rl b = some .SLOWLORIS ↔
      ¬ (0.6 < AttackClassifier.rateRatio rc rl ∧
        (f.userAgent = "" ∨ 0.5 < b)) ∧
      ¬ 0.85 < AttackClassifier.rateRatio rc rl ∧
      (f.contentLength = 0 ∧ f.method = "POST" ∧ 0.3 < b)) ∧
    (AttackClassifier.classify f rc rl b = some .CREDENTIAL_STUFFING ↔
      ¬ (0.6 < AttackClassifier.rateRatio rc rl ∧
        (f.userAgent = "" ∨ 0.5 < b)) ∧
      ¬ 0.85 < AttackClassifier.rateRatio rc rl ∧
      ¬ (f.contentLength = 0 ∧ f.method = "POST" ∧ 0.3 < b) ∧
      (pyLower f.path ∈ loginPaths ∧ f.method = "POST" ∧
        0.3 < AttackClassifier.rateRatio rc rl)) ∧
    (AttackClassifier.classify f rc rl b = some .API_ABUSE ↔
      ¬ (0.6 < AttackClassifier.rateRatio rc rl ∧
        (f.userAgent = "" ∨ 0.5 < b)) ∧
      ¬ 0.85 < AttackClassifier.rateRatio rc rl ∧
      ¬ (f.contentLength = 0 ∧ f.method = "POST" ∧ 0.3 < b) ∧
      ¬ (pyLower f.path ∈ loginPaths ∧ f.method = "POST" ∧
        0.3 < AttackClassifier.rateRatio rc rl) ∧
      (strIn "/api/" f.path = true ∧
        (f.method = "POST" ∨ f.method = "PUT" ∨ f.method = "DELETE") ∧
        (0.5 < AttackClassifier.rateRatio rc rl ∨ 0.6 < b))) ∧
    (AttackClassifier.classify f rc rl b = some .SCRAPING ↔
      ¬ (0.6 < AttackClassifier.rateRatio rc rl ∧
        (f.userAgent = "" ∨ 0.5 < b)) ∧
      ¬ 0.85 < AttackClassifier.rateRatio rc rl ∧
      ¬ (f.contentLength = 0 ∧ f.method = "POST" ∧ 0.3 < b) ∧
      ¬ (pyLower f.path ∈ loginPaths ∧ f.method = "POST" ∧
        0.3 < AttackClassifier.rateRatio rc rl) ∧
      ¬ (strIn "/api/" f.path = true ∧
        (f.method = "POST" ∨ f.method = "PUT" ∨ f.method = "DELETE") ∧
        (0.5 < AttackClassifier.rateRatio rc rl ∨ 0.6 < b)) ∧
      (f.method = "GET" ∧ 0.6 < b ∧
        0.4 < AttackClassifier.rateRatio rc rl)) ∧
    (AttackClassifier.classify f rc rl b = none ↔
      ¬ (0.6 < AttackClassifier.rateRatio rc rl ∧
        (f.userAgent = "" ∨ 0.5 < b)) ∧
      ¬ 0.85 < AttackClassifier.rateRatio rc rl ∧
      ¬ (f.contentLength = 0 ∧ f.method = "POST" ∧ 0.3 < b) ∧
      ¬ (pyLower f.path ∈ loginPaths ∧ f.method = "POST" ∧
        0.3 < AttackClassifier.rateRatio rc rl) ∧
      ¬ (strIn "/api/" f.path = true ∧
        (f.method = "POST" ∨ f.method = "PUT" ∨ f.method = "DELETE") ∧
        (0.5 < AttackClassifier.rateRatio rc rl ∨ 0.6 < b)) ∧
      ¬ (f.method = "GET" ∧ 0.6 < b ∧
        0.4 < AttackClassifier.rateRatio rc rl)) := by
  simp only [AttackClassifier.classify]
  split_ifs with h1 h2 h3 h4 h5 h6 <;>
    refine ⟨?_, ?_, ?_, ?_, ?_, ?_⟩ <;> simp_all

/-! ## C9 — the rate-string grammar -/

/-- C9 (counterexample): `parse_rate_string` accepts strings outside the
grammar — `"7"` (no slash) parses as `(7, 60)` via the `"minute"` default,
and `"7/fortnight"` (unknown unit) parses as `(7, 60)` via the
`unit_map.get(..., 60)` default — instead of being rejected. -/
theorem parseRateString_beyond_grammar :
    matchesRateGrammar "7".data = false ∧
    RulesEngine.parseRateString "7".data = some (7, 60) ∧
    matchesRateGrammar "7/fortnight".data = false ∧
    RulesEngine.parseRateString "7/fortnight".data = some (7, 60) := by
  refine ⟨by decide, by decide, by decide, by decide⟩

/-- C9 (amended): on every string of the grammar
`(\d+)/(second|minute|hour|day)` the parser returns the decimal count and
the window 1 / 60 / 3600 / 86400 s for the respective unit; but the parser
is more permissive than the grammar: a missing slash defaults the unit to
`"minute"`, an unknown unit defaults the window to 60 s, and only a count
field that is not an integer is rejected. -/
theorem parseRateString_on_grammar (d u : List Char)
    (hd : d ≠ []) (hdig : d.all Char.isDigit = true)
    (hu : u = "second".data ∨ u = "minute".data ∨ u = "hour".data ∨
      u = "day".data) :
    matchesRateGrammar (d ++ '/' :: u) = true ∧
    RulesEngine.parseRateString (d ++ '/' :: u) =
      some ((digitsToNat d : ℤ),
        if u = "second".data then 1
        else if u = "minute".data then 60
        else if u = "hour".data then 3600
        else 86400) := by
  have hslash_d : '/' ∉ d := by
    intro hmem
    have := List.all_eq_true.mp hdig '/' hmem
    simp at this
  have hslash_u : '/' ∉ u := by
    rcases hu with rfl | rfl | rfl | rfl <;> decide
  have hsp : pySplit '/' (d ++ '/' :: u) = [d, u] := by
    rw [pySplit_append '/' d u hslash_d, pySplit_of_notMem '/' u hslash_u]
  have hlower : u.map pyLowerChar = u := by
    rcases hu with rfl | rfl | rfl | rfl <;> decide
  have hint : pyInt d = some (digitsToNat d : ℤ) := by
    obtain ⟨c, cs, rfl⟩ := List.exists_cons_of_ne_nil hd
    have hcdig : c.isDigit = true :=
      List.all_eq_true.mp hdig c (List.mem_cons_self c cs)
    have hcm : ¬ c = '-' := fun h => by subst h; simp at hcdig
    have hcp : ¬ c = '+' := fun h => by subst h; simp at hcdig
    rw [pyInt, if_neg hcm, if_neg hcp, if_pos hdig]
  constructor
  · rw [matchesRateGrammar, hsp]
    simp only [Bool.and_eq_true, Bool.or_eq_true, decide_eq_true_eq]
    refine ⟨⟨by simpa using hd, hdig⟩, ?_⟩
    rcases hu with rfl | rfl | rfl | rfl <;> simp
  · rw [RulesEngine.parseRateString, hsp]
    simp only [List.headD_cons, hint, List.length_cons, List.length_nil,
      List.getD_cons_succ, List.getD_cons_zero]
    rw [if_pos (by norm_num), hlower]
    rcases hu with rfl | rfl | rfl | rfl <;> rfl

/-- Witness for the C9 theorem at `"5/minute"`. -/
theorem parseRateString_on_grammar_witness :
    ("5".data ≠ [] ∧ "5".data.all Char.isDigit = true) ∧
    RulesEngine.parseRateString "5/minute".data = some (5, 60) := by
  refine ⟨by decide, ?_⟩
  have h := parseRateString_on_grammar "5".data "minute".data (by decide)
    (by decide) (Or.inr (Or.inl rfl))
  have e : "5/minute".data = "5".data ++ '/' :: "minute".data := by decide
  rw [e, h.2]
  decide

/-- Witness for the C7 theorem: at σ = 2, μ = 0 the score is 0 at x = 3
(z = 1.5) and 1 at x = 6 (z = 3). -/
theorem zToScore_continuous_monotone_piecewise_witness :
    (0:ℚ) < 2 ∧ AnomalyScorer.zToScore 3 0 2 = 0 ∧
      AnomalyScorer.zToScore 6 0 2 = 1 := by
  have h := zToScore_continuous_monotone_piecewise 0 2 (by norm_num)
  have ha : |(3:ℚ) - 0| / 2 = 1.5 := by
    rw [show |(3:ℚ) - 0| = 3 by rw [abs_of_nonneg] <;> norm_num]
    norm_num
  have hb : |(6:ℚ) - 0| / 2 = 3 := by
    rw [show |(6:ℚ) - 0| = 6 by rw [abs_of_nonneg] <;> norm_num]
    norm_num
  exact ⟨by norm_num, h.2.2.1 3 (by rw [ha]), h.2.2.2.2 6 (by rw [hb])⟩

/-! ## C3 — the login rule behind the management-path skip -/

/-- C3 (counterexample): the login rule would match a POST to `/api/login`
— but `reverse_proxy` answers 404 for every path starting with `/api/`
(handler.py 186–189) before the rules engine runs, so the admission
pipeline never evaluates the per-rule rate limit for this path: at the
claim's failing input (any POST to `/api/login`, in particular the 6th in
the window) the response is 404, neither the 503 challenge page nor the
403 block. -/
theorem loginRule_escalation_counterexample :
    RulesEngine.matchRequest [loginProtectionRule] "/api/login" "POST" =
      [loginProtectionRule] ∧
    reverseProxySkips "/api/login" = true ∧
    proxyEntry [loginProtectionRule] "/api/login" "POST" = Sum.inl 404 ∧
    (404 : ℕ) ≠ 503 ∧ (404 : ℕ) ≠ 403 := by
  refine ⟨by decide, by decide, by decide, by decide, by decide⟩

/-- C3 (amended): POST requests to `/api/login` never reach the per-rule
stage — the management-path skip at the top of `reverse_proxy` answers 404
for every `/api/*` path before the rules engine runs, even though the
login rule would match — so the rule is dead configuration for that path.
For a request path that does reach the rules stage (here `/login`, matched
by the same rule re-pointed at `/login`), the per-IP rate string
`5/minute` parses to limit 5 over a 60-second window, the per-rule check
counts the just-added member, and once an IP exceeds the limit
(`count > 5`) the response is the escalation outcome — which, because a
rejected request always has `usage = count/5·100 ≥ 120 % > 95 %` (usage
exceeds 100 % for every positive limit), is always `block`: the TTL key
`block:<ip>` is written with TTL 3600 s (duration `"1h"`) and the response
is 403.  The 80 % step — a 503 JS-challenge page for usage in [80, 95) —
is shadowed and can never be the outcome of a rejection. -/
theorem loginRule_escalation (count : ℕ) (hcount : 5 < count)
    (validCookie : Bool) (ip : String) :
    reverseProxySkips "/api/login" = true ∧
    proxyEntry [loginProtectionRule] "/api/login" "POST" = Sum.inl 404 ∧
    reverseProxySkips "/login" = false ∧
    proxyEntry [loginPathRule] "/login" "POST" = Sum.inr [loginPathRule] ∧
    RulesEngine.parseRateString "5/minute".data = some (5, 60) ∧
    (∀ (entries : ZSet) (now : ℤ),
      (RateLimiter.checkRuleLimit (some entries) now 60 5).1 =
        (decide ((entries.filter (fun s => now - 60 < s)).length + 1 ≤ 5),
         (entries.filter (fun s => now - 60 < s)).length + 1)) ∧
    (95 : ℚ) ≤ (count : ℚ) / 5 * 100 ∧
    resolveEscalation loginPathRule.escalation
      ((count : ℚ) / 5 * 100) = "block" ∧
    parseDuration loginPathRule.escalation = some 3600 ∧
    ruleRejectionResponse loginPathRule count 5 validCookie =
      (403, some (some 3600)) ∧
    (∀ st : BlockerState, ∃ st2 : BlockerState,
      IPBlocker.block (some st) ip (some 3600) = some st2 ∧
      (ip, 3600) ∈ st2.ttlBlocks) ∧
    (∀ c l : ℕ, 0 < l → l < c → (100 : ℚ) < (c : ℚ) / (l : ℚ) * 100) := by
  have hc6 : (6 : ℚ) ≤ (count : ℚ) := by exact_mod_cast hcount
  have heq : (count : ℚ) / 5 * 100 = (count : ℚ) * 20 := by ring
  have h95 : (95 : ℚ) ≤ (count : ℚ) / 5 * 100 := by rw [heq]; linarith
  have h80 : (80 : ℚ) ≤ (count : ℚ) / 5 * 100 := by linarith
  have hsort : sortByThreshold loginPathRule.escalation =
      loginPathRule.escalation := by decide
  have hresolve : resolveEscalation loginPathRule.escalation
      ((count : ℚ) / 5 * 100) = "block" := by
    rw [resolveEscalation, hsort]
    simp only [loginPathRule, loginProtectionRule]
    rw [List.foldl_cons, List.foldl_cons, List.foldl_nil]
    dsimp only
    rw [if_pos h80, if_pos h95]
  have hdur : parseDuration loginPathRule.escalation = some 3600 := by
    decide
  refine ⟨by decide, by decide, by decide, by decide, by decide, ?_, h95,
    hresolve, hdur, ?_, ?_, ?_⟩
  · intro entries now
    simp [RateLimiter.checkRuleLimit]
  · simp only [ruleRejectionResponse, Nat.cast_ofNat]
    rw [if_pos (by norm_num : ¬ (5:ℕ) = 0), hresolve]
    simp [hdur]
  · intro st
    refine ⟨{ st with ttlBlocks := IPBlocker.setTtlKey st.ttlBlocks ip 3600 },
      ?_, ?_⟩
    · simp [IPBlocker.block]
    · simp [IPBlocker.setTtlKey]
  · intro c l hl hlc
    have hlq : (0 : ℚ) < (l : ℚ) := by exact_mod_cast hl
    have hcq : (l : ℚ) + 1 ≤ (c : ℚ) := by exact_mod_cast hlc
    rw [div_mul_eq_mul_div, lt_div_iff hlq]
    nlinarith

/-- Witness for the C3 theorem at `count = 6` on the reachable path. -/
theorem loginRule_escalation_witness :
    (5 < 6) ∧ ruleRejectionResponse loginPathRule 6 5 false =
      (403, some (some 3600)) := by
  have h := loginRule_escalation 6 (by norm_num) false "10.0.0.1"
  exact ⟨by norm_num, h.2.2.2.2.2.2.2.2.2.1⟩

/-! ## C2 — challenge-token verification -/

/-- C2: `_verify_token` accepts exactly the five-part cookies
`ip:nonce:ts:sig:pow_nonce` (no `:` inside a part) for which the ip equals
the current client IP, `ts` parses as an integer with `now − ts ≤ 3600`,
`sig` is the HMAC-SHA256 of `ip:nonce:ts` under the secret, and the SHA-256
hex of the whole token starts with `"00"`; every other cookie value — wrong
part count, wrong IP, stale or unparsable timestamp, bad signature, failed
proof-of-work — is rejected. -/
theorem verifyToken_iff (crypto : CryptoModel) (now : ℤ)
    (token clientIp : List Char) :
    ChallengeManager.verifyToken crypto now token clientIp = true ↔
    ∃ nonce ts sig powNonce : List Char,
      token = clientIp ++ ':' :: nonce ++ ':' :: ts ++ ':' :: sig ++
        ':' :: powNonce ∧
      ':' ∉ clientIp ∧ ':' ∉ nonce ∧ ':' ∉ ts ∧ ':' ∉ sig ∧ ':' ∉ powNonce ∧
      (∃ tsv : ℤ, pyInt ts = some tsv ∧ now - tsv ≤ 3600) ∧
      sig = crypto.hmacSha256Hex (clientIp ++ ':' :: nonce ++ ':' :: ts) ∧
      ['0', '0'].isPrefixOf (crypto.sha256Hex token) = true := by
  constructor
  · intro h
    rw [ChallengeManager.verifyToken] at h
    rcases hsp : pySplit ':' token with _ |
      ⟨ip, _ | ⟨nonce, _ | ⟨ts, _ | ⟨sig, _ | ⟨powNonce, _ | ⟨x, xs⟩⟩⟩⟩⟩⟩
    · rw [hsp] at h; simp at h
    · rw [hsp] at h; simp at h
    · rw [hsp] at h; simp at h
    · rw [hsp] at h; simp at h
    · rw [hsp] at h; simp at h
    · -- exactly five parts
      rw [hsp] at h
      dsimp only at h
      have hmem := notMem_of_mem_pySplit ':' token
      rw [hsp] at hmem
      have hip : ':' ∉ ip := hmem ip (by simp)
      have hnonce : ':' ∉ nonce := hmem nonce (by simp)
      have hts : ':' ∉ ts := hmem ts (by simp)
      have hsig : ':' ∉ sig := hmem sig (by simp)
      have hpow : ':' ∉ powNonce := hmem powNonce (by simp)
      have htok : token = ip ++ ':' :: nonce ++ ':' :: ts ++ ':' :: sig ++
          ':' :: powNonce := by
        have hj := pyJoin_pySplit ':' token
        rw [hsp] at hj
        simpa [pyJoin] using hj.symm
      rcases hint : pyInt ts with _ | tsv
      · rw [hint] at h
        simp at h
      · rw [hint] at h
        dsimp only at h
        split_ifs at h with h1 h2 h3
        simp at h
        have hipeq : ip = clientIp := not_not.mp h1
        have hsigeq : sig =
            crypto.hmacSha256Hex (ip ++ ':' :: nonce ++ ':' :: ts) :=
          not_not.mp h3
        subst hipeq
        refine ⟨nonce, ts, sig, powNonce, htok, hip, hnonce, hts, hsig,
          hpow, ⟨tsv, hint, by simpa [CHALLENGE_TTL] using h2⟩, hsigeq, ?_⟩
        rw [htok]
        simpa [List.append_assoc] using h
    · rw [hsp] at h; simp at h
  · rintro ⟨nonce, ts, sig, powNonce, htok, hip, hnonce, hts, hsig, hpow,
      ⟨tsv, hint, httl⟩, hsigeq, hsha⟩
    subst htok
    have hsp : pySplit ':'
        (clientIp ++ ':' :: nonce ++ ':' :: ts ++ ':' :: sig ++
          ':' :: powNonce) = [clientIp, nonce, ts, sig, powNonce] := by
      rw [show clientIp ++ ':' :: nonce ++ ':' :: ts ++ ':' :: sig ++
          ':' :: powNonce =
        clientIp ++ ':' :: (nonce ++ ':' :: (ts ++ ':' :: (sig ++
          ':' :: powNonce))) by simp]
      rw [pySplit_append ':' clientIp _ hip,
        pySplit_append ':' nonce _ hnonce,
        pySplit_append ':' ts _ hts,
        pySplit_append ':' sig _ hsig,
        pySplit_of_notMem ':' powNonce hpow]
    rw [ChallengeManager.verifyToken, hsp]
    dsimp only
    rw [if_neg (show ¬ clientIp ≠ clientIp by simp), hint]
    dsimp only
    rw [if_neg (show ¬ CHALLENGE_TTL < now - tsv by
        simp only [CHALLENGE_TTL]; omega),
      if_neg (show ¬ sig ≠ crypto.hmacSha256Hex
        (clientIp ++ ':' :: nonce ++ ':' :: ts) by simpa using hsigeq)]
    simpa [List.append_assoc] using hsha

/-- Witness for the C2 theorem: a concrete accepted token under concrete
hash stand-ins. -/
theorem verifyToken_iff_witness :
    ChallengeManager.verifyToken ⟨fun _ => ['s'], fun _ => ['0', '0']⟩ 0
      "1.2.3.4:abc:0:s:7".data "1.2.3.4".data = true := by
  apply (verifyToken_iff ⟨fun _ => ['s'], fun _ => ['0', '0']⟩ 0
    "1.2.3.4:abc:0:s:7".data "1.2.3.4".data).mpr
  exact ⟨"abc".data, "0".data, ['s'], ['7'], by decide, by decide, by decide,
    by decide, by decide, by decide, ⟨0, by decide, by decide⟩, rfl, by decide⟩

/-- Witness for the C5 theorem: a POST to `/api/login` at rate ratio 0.4
with a non-empty User-Agent is classified as credential stuffing. -/
theorem classify_first_match_cases_witness :
    AttackClassifier.classify ⟨"POST", "/api/login", "x", 5⟩ 4 10 0 =
      some .CREDENTIAL_STUFFING := by
  have h := (classify_first_match_cases ⟨"POST", "/api/login", "x", 5⟩
    4 10 0).2.2.1
  apply h.mpr
  have hr : AttackClassifier.rateRatio 4 10 = 2 / 5 := by
    rw [AttackClassifier.rateRatio, if_pos (by norm_num)]
    norm_num
  refine ⟨?_, ?_, ?_, ?_, rfl, ?_⟩
  · rw [hr]
    rintro ⟨h1, _⟩
    norm_num at h1
  · rw [hr]
    norm_num
  · rintro ⟨h1, _, _⟩
    norm_num at h1
  · decide
  · rw [hr]
    norm_num
